import Mathlib

/-!
Verification of the price-reconciliation core of the best-buy-tracker-bot
repository.  The Python sources under `src/` are shallowly embedded below:
prices are modelled as rationals (`ℚ`), Python `None` as `Option`,
heterogeneous Keepa payload values as an inductive `PyVal` type, and each
relevant Python function is translated into an executable Lean definition
keeping the source's name and control flow.
-/

namespace PriceTracker

/-- Embedding of `validate_price_consistency` from `src/bot.py` (lines 68-86):
current price is never changed; min/max are adjusted to absorb the observed
current price.  Returns the corrected `(min_price, max_price)`. -/
def validate_price_consistency (current_price min_price max_price : ℚ) : ℚ × ℚ :=
  let corrected_min := if current_price < min_price then current_price else min_price
  let corrected_max := if current_price > max_price then current_price else max_price
  (corrected_min, corrected_max)

/-- Embedding of the notification decision in `refresh_prices_and_notify`
(`src/bot.py` lines 292-294): notify when `drop > 1.0` or
`old_price > 0 and drop / old_price > 0.05`, where `drop = old_price - current_price`. -/
def refresh_should_notify (old_price current_price : ℚ) : Bool :=
  let drop := old_price - current_price
  decide (drop > 1) || (decide (old_price > 0) && decide (drop / old_price > 5 / 100))

/-- Embedding of the cache key built by `KeepaCache.get_lifetime_minmax` /
`set_lifetime_minmax` in `src/cache.py` (lines 103-111):
`"minmax:" + ":".join(sorted(asins))`.  Python's `sorted` on strings is the
sort by the lexicographic order on code points, modelled with
`List.insertionSort` under `String`'s linear order. -/
def minmax_cache_key (asins : List String) : String :=
  "minmax:" ++ String.intercalate ":" (asins.insertionSort (· ≤ ·))

/-- Key of a Python dict probed by the Keepa extractor in
`src/keepa_client.py`: the probed channel keys mix strings (`"AMAZON"`) and
integers (`0`, `1`). -/
inductive PyKey where
  | s : String → PyKey
  | i : Int → PyKey
deriving DecidableEq

/-- Heterogeneous value as delivered in a raw Keepa stats/history record:
a number (Python int/float, modelled as `ℚ`), a list, a dict, or any other
non-numeric value (Python `None`, strings, ...), which every extraction step
rejects. -/
inductive PyVal where
  | num : ℚ → PyVal
  | list : List PyVal → PyVal
  | dict : List (PyKey × PyVal) → PyVal
  | null : PyVal

/-- Lookup in a Python dict with mixed keys (`val.get(k)`). -/
def dictGet (d : List (PyKey × PyVal)) (k : PyKey) : Option PyVal :=
  (d.find? (fun kv => decide (kv.1 = k))).map (·.2)

/-- Lookup in the string-keyed `stats` dict (`stats.get(key)`). -/
def statsGet (stats : List (String × PyVal)) (k : String) : Option PyVal :=
  (stats.find? (fun kv => decide (kv.1 = k))).map (·.2)

/-- The plausibility range imposed on every stat price candidate in
`_pick_amazon_stat` (`src/keepa_client.py`): `0 < price < 2_000_000` cents. -/
def price_ok (x : ℚ) : Bool := decide (0 < x) && decide (x < 2000000)

/-- Embedding of `extract_from_pair` inside `_pick_amazon_stat`
(`src/keepa_client.py` lines 311-322): decide which element of a 2-element
stat entry is the price by magnitude, rejecting elements above 2,000,000 as
timestamps; with both in range the first element is the price. -/
def extract_from_pair : PyVal → PyVal → Option ℚ
  | .num a, .num b =>
    if a > 2000000 ∧ b < 2000000 then some b
    else if b > 2000000 ∧ a < 2000000 then some a
    else if a < 200000 ∧ b > 200000 then some a
    else some a
  | _, _ => none

/-- One step of the fallback scan over list entries in `_pick_amazon_stat`
(lines 334-343): a `[a, b, ...]` entry goes through `extract_from_pair`, a
scalar is accepted if plausible, anything else is skipped. -/
def scan_stat_entry (v : PyVal) : Option ℚ :=
  match v with
  | .list (a :: b :: _) =>
    match extract_from_pair a b with
    | some price => if price_ok price then some price else none
    | none => none
  | .num x => if price_ok x then some x else none
  | _ => none

/-- Channel keys probed on a dict-shaped stat entry in `_pick_amazon_stat`
(line 346). -/
def amazon_stat_keys : List PyKey :=
  [.s "AMAZON", .s "amazon", .s "AMZ", .i 0, .s "0", .s "NEW", .s "new", .i 1, .s "1"]

/-- Shape dispatch of `_pick_amazon_stat` on the raw stat value
(`src/keepa_client.py` lines 324-358): list (primary index 0, then scan),
dict (probe channel keys), scalar, or anything else (rejected). -/
def pick_stat_val : PyVal → Option ℚ
  | .list l =>
    let primary_hit : Option ℚ :=
      match l with
      | .list (a :: b :: _) :: _ =>
        match extract_from_pair a b with
        | some price => if price_ok price then some price else none
        | none => none
      | .num x :: _ => if price_ok x then some x else none
      | _ => none
    match primary_hit with
    | some price => some price
    | none => l.findSome? scan_stat_entry
  | .dict d =>
    amazon_stat_keys.findSome? (fun k =>
      match dictGet d k with
      | some (.num x) => if price_ok x then some x else none
      | some (.list (a :: b :: _)) =>
        match extract_from_pair a b with
        | some extracted => if price_ok extracted then some extracted else none
        | none => none
      | _ => none)
  | .num x => if price_ok x then some x else none
  | _ => none

/-- Embedding of `_pick_amazon_stat` (`src/keepa_client.py` lines 288-358):
extract the Amazon price in cents for the requested stat key. -/
def pick_amazon_stat (stats : List (String × PyVal)) (key : String) : Option ℚ :=
  match statsGet stats key with
  | some v => pick_stat_val v
  | none => none

/-- A raw Keepa product record as consumed by
`_parse_keepa_products_with_current` and `_minmax_from_history`: the `stats`
dict (empty list models a missing/empty dict, which is falsy in Python), the
`data` dict of per-channel series, and the `csv` parallel array. -/
structure KeepaProduct where
  stats : List (String × PyVal)
  data : List (PyKey × PyVal)
  csv : List PyVal

/-- Channel keys probed on `product['data']` in `_minmax_from_history`
(`src/keepa_client.py` line 537); unlike the stat keys there is no `"AMZ"`. -/
def history_series_keys : List PyKey :=
  [.s "AMAZON", .s "amazon", .i 0, .s "0", .s "NEW", .s "new", .i 1, .s "1"]

/-- Series location in `_minmax_from_history` (lines 534-547): prefer a
channel-keyed series of length ≥ 4 in `data`, else `csv[0]` when it is a
list of length ≥ 4. -/
def find_history_series (data : List (PyKey × PyVal)) (csv : List PyVal) :
    Option (List PyVal) :=
  match history_series_keys.findSome? (fun k =>
      match dictGet data k with
      | some (.list seq) => if seq.length ≥ 4 then some seq else none
      | _ => none) with
  | some s => some s
  | none =>
    match csv with
    | .list c0 :: _ => if c0.length ≥ 4 then some c0 else none
    | _ => none

/-- The numeric entries of a series at even (`parity = 0`) or odd
(`parity = 1`) indices (lines 550-551; all modelled numbers are finite). -/
def series_nums_at (parity : Nat) (series : List PyVal) : List ℚ :=
  series.enum.filterMap (fun iv =>
    match iv.2 with
    | .num x => if iv.1 % 2 = parity then some x else none
    | _ => none)

/-- Count of non-decreasing consecutive steps used by `monotonic_score`. -/
def mono_inc_count : ℚ → List ℚ → Nat
  | _, [] => 0
  | last, v :: rest => (if v ≥ last then 1 else 0) + mono_inc_count v rest

/-- Embedding of `monotonic_score` (lines 553-564): fraction of consecutive
non-decreasing steps, 0 for sequences shorter than 3. -/
def monotonic_score (seq : List ℚ) : ℚ :=
  if seq.length < 3 then 0
  else
    match seq with
    | [] => 0
    | a :: rest => (mono_inc_count a rest : ℚ) / (rest.length : ℚ)

/-- Embedding of `sorted(vals)[len(vals)//2] if vals else 0` (lines 568-569). -/
def py_median (vals : List ℚ) : ℚ :=
  (vals.insertionSort (· ≤ ·)).getD (vals.length / 2) 0

/-- The history price filter `0 < v <= 2_000_000` (line 600; note the
inclusive upper bound, unlike the strict stat-range check). -/
def price_cents_ok (v : ℚ) : Bool := decide (0 < v) && decide (v ≤ 2000000)

/-- Embedding of `_minmax_from_history` (`src/keepa_client.py` lines 524-626):
split the located series into even/odd subsets, decide which subset is the
timestamp axis (monotonicity, then magnitude of medians, then the
higher-scoring subset), filter the price candidates, apply the IQR outlier
filter when at least 5 candidates remain, and return `(min, max)` in cents. -/
def minmax_from_history (p : KeepaProduct) : Option ℚ × Option ℚ :=
  match find_history_series p.data p.csv with
  | none => (none, none)
  | some series =>
    let even_vals := series_nums_at 0 series
    let odd_vals := series_nums_at 1 series
    let m_even := monotonic_score even_vals
    let m_odd := monotonic_score odd_vals
    let median_even := py_median even_vals
    let median_odd := py_median odd_vals
    let timestamps_are_even : Bool :=
      if m_even ≥ 4 / 5 ∧ m_odd < 3 / 5 then true
      else if m_odd ≥ 4 / 5 ∧ m_even < 3 / 5 then false
      else if median_even > 1000000 ∧ median_even > median_odd * 2 then true
      else if median_odd > 1000000 ∧ median_odd > median_even * 2 then false
      else decide (m_even > m_odd)
    let price_candidates := if timestamps_are_even then odd_vals else even_vals
    let filtered0 := price_candidates.filter price_cents_ok
    let filtered :=
      if filtered0.isEmpty then
        (if timestamps_are_even then even_vals else odd_vals).filter price_cents_ok
      else filtered0
    if filtered.isEmpty then (none, none)
    else
      let filtered2 :=
        if filtered.length ≥ 5 then
          let s := filtered.insertionSort (· ≤ ·)
          let q1 := s.getD (s.length / 4) 0
          let q3 := s.getD ((s.length * 3) / 4) 0
          let iqr := max (q3 - q1) 1
          let upper := q3 + 3 * iqr
          let lower := max (q1 - 3 * iqr) 0
          filtered.filter (fun v => decide (lower ≤ v) && decide (v ≤ upper))
        else filtered
      if filtered2.isEmpty then (none, none)
      else (filtered2.min?, filtered2.max?)

/-- A stat value is usable when it is a number greater than zero
(`isinstance(raw, (int, float)) and raw > 0`). -/
def stat_valid : Option ℚ → Bool
  | some x => decide (0 < x)
  | none => false

/-- `not isinstance(raw, (int, float)) or raw <= 0`. -/
def stat_invalid (o : Option ℚ) : Bool := ! stat_valid o

/-- Seeding step of `_parse_keepa_products_with_current` (lines 406-409):
a missing/invalid bound is initialized from a valid current price. -/
def seed_from_current (raw raw_current : Option ℚ) : Option ℚ :=
  if stat_invalid raw && stat_valid raw_current then raw_current else raw

/-- The history-fallback trigger of `_parse_keepa_products_with_current`
(lines 412-418): bounds missing/invalid, or the degenerate triple
`min == max == current` with a numeric current. -/
def need_history (raw_min raw_max raw_current : Option ℚ) : Bool :=
  stat_invalid raw_min || stat_invalid raw_max ||
    (match raw_current with
     | some c => decide (raw_min = some c) && decide (raw_max = some c)
     | none => false)

/-- Python truthiness of an optional number (`hmin and ...`). -/
def py_truthy : Option ℚ → Bool
  | some x => decide (x ≠ 0)
  | none => false

/-- Bound update from history (line 438): replace `raw_min` by `hmin` when
`raw_min` is invalid, or when it is the provisional current value and the
history minimum improves on it. -/
def history_update_min (raw_min raw_current hmin : Option ℚ) : Option ℚ :=
  let cond :=
    stat_invalid raw_min ||
      (match raw_min, raw_current, hmin with
       | some m, some c, some h => decide (m = c) && decide (h ≠ 0) && decide (h < m)
       | _, _, _ => false)
  if cond && py_truthy hmin then hmin else raw_min

/-- Bound update from history (line 441): replace `raw_max` by `hmax` when
`raw_max` is invalid, or when it is the provisional current value and the
history maximum improves on it. -/
def history_update_max (raw_max raw_current hmax : Option ℚ) : Option ℚ :=
  let cond :=
    stat_invalid raw_max ||
      (match raw_max, raw_current, hmax with
       | some m, some c, some h => decide (m = c) && decide (h ≠ 0) && decide (m < h)
       | _, _, _ => false)
  if cond && py_truthy hmax then hmax else raw_max

/-- Round-half-to-even on `ℚ`, modelling Python's `round`. -/
def round_half_even (x : ℚ) : ℤ :=
  let f := ⌊x⌋
  let frac := x - f
  if frac < 1 / 2 then f
  else if 1 / 2 < frac then f + 1
  else if f % 2 = 0 then f else f + 1

/-- `round(x, 2)` on `ℚ`. -/
def py_round2 (x : ℚ) : ℚ := (round_half_even (x * 100) : ℚ) / 100

/-- Final unit conversion of `_parse_keepa_products_with_current`
(lines 456-458): `round(raw / 100.0, 2)` for positive numeric values, else
`None`. -/
def cents_to_price : Option ℚ → Option ℚ
  | some x => if 0 < x then some (py_round2 (x / 100)) else none
  | none => none

/-- Embedding of the per-product body of `_parse_keepa_products_with_current`
(`src/keepa_client.py` lines 384-464): stat extraction, seeding from current,
history fallback, and unit conversion, returning `(min, max, current)` in
major units. -/
def parse_keepa_product_with_current (p : KeepaProduct) :
    Option ℚ × Option ℚ × Option ℚ :=
  let raw0 : Option ℚ × Option ℚ × Option ℚ :=
    if p.stats.isEmpty then (none, none, none)
    else
      let raw_current := pick_amazon_stat p.stats "current"
      let raw_min := pick_amazon_stat p.stats "min"
      let raw_max := pick_amazon_stat p.stats "max"
      (seed_from_current raw_min raw_current,
       seed_from_current raw_max raw_current, raw_current)
  let raw_current := raw0.2.2
  let raw_bounds : Option ℚ × Option ℚ :=
    if need_history raw0.1 raw0.2.1 raw_current then
      let h := minmax_from_history p
      (history_update_min raw0.1 raw_current h.1,
       history_update_max raw0.2.1 raw_current h.2)
    else (raw0.1, raw0.2.1)
  (cents_to_price raw_bounds.1, cents_to_price raw_bounds.2, cents_to_price raw_current)

/-- The concrete degenerate-bounds product of the C2 test: stats
`min = max = current = 1000` cents and a `csv[0]` history series whose odd
indices hold `[800, 1200]` and whose even indices hold monotonically
increasing Keepa-minute timestamps. -/
def degenerate_example_product : KeepaProduct where
  stats := [("current", .num 1000), ("min", .num 1000), ("max", .num 1000)]
  data := []
  csv := [.list [.num 7000000, .num 800, .num 7100000, .num 1200]]

/-- The circuit-breaker states of `src/resilience.py` (`CircuitState`). -/
inductive CircuitState where
  | closed
  | opened
  | halfOpen
deriving DecidableEq

/-- `CircuitBreakerConfig` from `src/resilience.py`: failure threshold and
recovery timeout (seconds, modelled as `ℚ`). -/
structure CircuitBreakerConfig where
  failure_threshold : Nat
  recovery_timeout : ℚ

/-- The mutable fields of a `CircuitBreaker` instance. -/
structure BreakerState where
  failure_count : Nat
  last_failure_time : Option ℚ
  state : CircuitState
deriving DecidableEq

/-- A fresh breaker (`CircuitBreaker.__init__`): zero failures, no failure
time, CLOSED. -/
def breaker_init : BreakerState := ⟨0, none, .closed⟩

/-- Embedding of `CircuitBreaker._should_attempt_reset` (`src/resilience.py`
lines 28-33): OPEN, a recorded last failure, and the recovery timeout elapsed. -/
def should_attempt_reset (cfg : CircuitBreakerConfig) (s : BreakerState) (now : ℚ) : Bool :=
  decide (s.state = .opened) &&
    (match s.last_failure_time with
     | some t => decide (now - t ≥ cfg.recovery_timeout)
     | none => false)

/-- Embedding of `CircuitBreaker._on_success`: reset the failure count and
close the circuit (the last failure time is left untouched). -/
def on_success (s : BreakerState) : BreakerState :=
  ⟨0, s.last_failure_time, .closed⟩

/-- Embedding of `CircuitBreaker._on_failure`: bump the failure count, record
the failure time, and open the circuit once the count reaches the threshold. -/
def on_failure (cfg : CircuitBreakerConfig) (s : BreakerState) (now : ℚ) : BreakerState :=
  let fc := s.failure_count + 1
  ⟨fc, some now, if fc ≥ cfg.failure_threshold then .opened else s.state⟩

/-- Result of one `CircuitBreaker.call`: either the fail-fast
`Exception("Circuit breaker is OPEN")` raised without invoking the wrapped
function, or an invocation of the wrapped function with the given outcome
(`true` = returned, `false` = raised an expected exception). -/
inductive CallResult where
  | circuitOpenError
  | invoked (success : Bool)
deriving DecidableEq

/-- Embedding of `CircuitBreaker.call` (`src/resilience.py` lines 35-48):
when OPEN, either transition to HALF_OPEN (timeout elapsed) or fail fast;
otherwise invoke the wrapped function and run `_on_success` / `_on_failure`.
`now` stands for `time.time()` during this call and `outcome` for the wrapped
function's behaviour. -/
def breaker_call (cfg : CircuitBreakerConfig) (s : BreakerState) (now : ℚ)
    (outcome : Bool) : CallResult × BreakerState :=
  if s.state = .opened ∧ should_attempt_reset cfg s now = false then
    (.circuitOpenError, s)
  else
    let s1 := if s.state = .opened then
        { s with state := .halfOpen } else s
    if outcome then (.invoked true, on_success s1)
    else (.invoked false, on_failure cfg s1 now)

/-- A sequence of calls whose invocations all fail, at the given times. -/
def apply_failures (cfg : CircuitBreakerConfig) : BreakerState → List ℚ → BreakerState
  | s, [] => s
  | s, t :: ts => apply_failures cfg (breaker_call cfg s t false).2 ts

/-- Availability strings the refresh pass persists (`src/bot.py` line 280). -/
def persisted_avail_values : List String :=
  ["unavailable", "preorder", "available", "in_stock"]

/-- The bound-seeding fallback of `refresh_prices_and_notify` (`src/bot.py`
lines 259-268): when a Keepa bound is missing, seed both bounds from the API
price, else the Keepa current, else the persisted last price. -/
def seed_bounds (k_min k_max k_cur api_price last_price : Option ℚ) :
    Option ℚ × Option ℚ :=
  if k_min = none ∨ k_max = none then
    match api_price with
    | some p => (some p, some p)
    | none =>
      match k_cur with
      | some c => (some c, some c)
      | none =>
        match last_price with
        | some lp => (some lp, some lp)
        | none => (k_min, k_max)
  else (k_min, k_max)

/-- The per-ASIN price computation of `refresh_prices_and_notify`
(`src/bot.py` lines 259-273): seed bounds, skip the ASIN (`continue`) when
they are still missing, pick the current price (API price, else Keepa
current, else the midpoint of the bounds), and run the consistency
correction.  Returns `(adj_min, adj_max, current_price)`. -/
def compute_asin_prices (k_min k_max k_cur api_price last_price : Option ℚ) :
    Option (ℚ × ℚ × ℚ) :=
  match seed_bounds k_min k_max k_cur api_price last_price with
  | (some m, some mx) =>
    let current_price :=
      match api_price with
      | some p => p
      | none =>
        match k_cur with
        | some c => c
        | none => (m + mx) / 2
    let adj := validate_price_consistency current_price m mx
    some (adj.1, adj.2, current_price)
  | _ => none

/-- The observable per-item effects of one refresh iteration
(`src/bot.py` lines 275-311): the bounds written via
`db.update_price_bounds`, the price and availability written via
`db.update_price`, and whether a notification is sent. -/
structure ItemOutcome where
  bounds_write : ℚ × ℚ
  price_write : ℚ × Option String
  notified : Bool
deriving DecidableEq

/-- Embedding of the per-item body of `refresh_prices_and_notify`
(`src/bot.py` lines 275-311): persist only explicit availability values,
suppress notification when availability is `unavailable`, always write the
corrected bounds and the current price, and notify when the old price is a
number and the drop is significant. -/
def process_item (adj_min adj_max current_price : ℚ) (old_price : Option ℚ)
    (api_avail : Option String) : ItemOutcome :=
  let to_avail : Option String :=
    match api_avail with
    | some a => if a ∈ persisted_avail_values then some a else none
    | none => none
  let should_notify : Bool := decide (to_avail ≠ some "unavailable")
  let notified : Bool :=
    should_notify &&
      (match old_price with
       | some op => refresh_should_notify op current_price
       | none => false)
  ⟨(adj_min, adj_max), (current_price, to_avail), notified⟩

/-- Whitespace characters handled by the normalizer in `parse_price_text`
(`src/utils.py`): the common Python whitespace characters plus the
non-breaking and narrow no-break spaces the function normalizes explicitly. -/
def is_py_space (c : Char) : Bool :=
  c == ' ' || c == '\t' || c == '\n' || c == '\r' || c.toNat == 11 || c.toNat == 12 ||
    c.toNat == 0xa0 || c.toNat == 0x202f

/-- `text.strip()` over the modelled whitespace set. -/
def py_strip (cs : List Char) : List Char :=
  ((cs.dropWhile is_py_space).reverse.dropWhile is_py_space).reverse

/-- `raw.replace(' ', ' ').replace('\xa0', ' ')` (`src/utils.py` line 36). -/
def replace_narrow_spaces (cs : List Char) : List Char :=
  cs.map (fun c => if c.toNat == 0x202f || c.toNat == 0xa0 then ' ' else c)

/-- The currency alternation of `parse_price_text`
(`src/utils.py` line 39), in regex order. -/
def currency_tokens : List String :=
  ["USD", "EUR", "GBP", "CHF", "CAD", "AUD", "£", "€", "$"]

/-- `symbol_map.get(sym, sym)` (line 43-44): map `£ € $` to ISO codes. -/
def currency_symbol_map (sym : String) : String :=
  if sym = "£" then "GBP"
  else if sym = "€" then "EUR"
  else if sym = "$" then "USD"
  else sym

/-- Case-sensitive token match at the head of a character list. -/
def token_at : List Char → List Char → Bool
  | [], _ => true
  | _ :: _, [] => false
  | t :: ts, c :: rest => (t == c) && token_at ts rest

/-- Case-insensitive token match at the head of a character list
(regex `IGNORECASE`). -/
def token_at_ci : List Char → List Char → Bool
  | [], _ => true
  | _ :: _, [] => false
  | t :: ts, c :: rest => (t.toLower == c.toLower) && token_at_ci ts rest

/-- `re.search` for the currency alternation (line 39, case-sensitive):
leftmost match, alternatives in pattern order, result mapped through
`currency_symbol_map`. -/
def find_currency : List Char → Option String
  | [] => none
  | c :: rest =>
    match currency_tokens.find? (fun t => token_at t.data (c :: rest)) with
    | some t => some (currency_symbol_map t)
    | none => find_currency rest

/-- `re.sub(tokens, '', s, flags=IGNORECASE)` (line 46): remove every
non-overlapping, leftmost-first occurrence of the given tokens.  The fuel
argument (instantiated with the list length) only makes the recursion
structural; one character or one token is consumed per step. -/
def remove_tokens_ci (toks : List (List Char)) : Nat → List Char → List Char
  | 0, _ => []
  | _, [] => []
  | fuel + 1, c :: rest =>
    match toks.find? (fun t => decide (t ≠ []) && token_at_ci t (c :: rest)) with
    | some t => remove_tokens_ci toks fuel (rest.drop (t.length - 1))
    | none => c :: remove_tokens_ci toks fuel rest

/-- Length matched by the qualifier-word pattern
`(?i)(ttc|iva|tax(es)?|incl\.?|compr\.?|sped\.?|gratuit)` (line 48) at the
head of the list: alternatives in pattern order, greedy optional parts. -/
def qualifier_match_len (cs : List Char) : Option Nat :=
  if token_at_ci "ttc".data cs then some 3
  else if token_at_ci "iva".data cs then some 3
  else if token_at_ci "taxes".data cs then some 5
  else if token_at_ci "tax".data cs then some 3
  else if token_at_ci "incl.".data cs then some 5
  else if token_at_ci "incl".data cs then some 4
  else if token_at_ci "compr.".data cs then some 6
  else if token_at_ci "compr".data cs then some 5
  else if token_at_ci "sped.".data cs then some 5
  else if token_at_ci "sped".data cs then some 4
  else if token_at_ci "gratuit".data cs then some 7
  else none

/-- `re.sub` for the qualifier-word pattern (line 48), fuelled like
`remove_tokens_ci`. -/
def remove_qualifiers : Nat → List Char → List Char
  | 0, _ => []
  | _, [] => []
  | fuel + 1, c :: rest =>
    match qualifier_match_len (c :: rest) with
    | some n => remove_qualifiers fuel (rest.drop (n - 1))
    | none => c :: remove_qualifiers fuel rest

/-- The character class `[0-9.,]` kept by line 52. -/
def is_digit_sep (c : Char) : Bool := c.isDigit || c == '.' || c == ','

/-- The last separator character of the cleaned string; with both `,` and `.`
present it is `,` exactly when `clean.rfind(',') > clean.rfind('.')`. -/
def last_sep (cs : List Char) : Option Char :=
  (cs.filter (fun c => c == ',' || c == '.')).getLast?

/-- The decimal/thousands-separator disambiguation of `parse_price_text`
(`src/utils.py` lines 54-67). -/
def resolve_separators (cs : List Char) : List Char :=
  if cs.count ',' > 0 ∧ cs.count '.' > 0 then
    if last_sep cs = some ',' then
      (cs.filter (fun c => !(c == '.'))).map (fun c => if c == ',' then '.' else c)
    else cs.filter (fun c => !(c == ','))
  else
    if cs.count ',' = 1 ∧
        ((cs.dropWhile (fun c => !(c == ','))).tail.length = 2 ∨
          (cs.dropWhile (fun c => !(c == ','))).tail.length = 3) then
      cs.map (fun c => if c == ',' then '.' else c)
    else cs.filter (fun c => !(c == ','))

/-- Decimal digit accumulation for the float model. -/
def digits_to_nat (cs : List Char) : Nat :=
  cs.foldl (fun acc c => acc * 10 + (c.toNat - '0'.toNat)) 0

/-- The division-free core of the float model: Python's `float()` on the
alphabet reachable here (digits, `.`, `,`) succeeds exactly on a nonempty
string of digits with at most one dot and at least one digit, yielding the
integer part, the fractional digits, and the fractional length. -/
def py_float_parts (cs : List Char) : Option (Nat × Nat × Nat) :=
  if cs.isEmpty then none
  else if !(cs.all (fun c => c.isDigit || c == '.')) then none
  else if cs.count '.' > 1 then none
  else if !(cs.any Char.isDigit) then none
  else
    let int_part := cs.takeWhile (fun c => !(c == '.'))
    let frac_part := (cs.dropWhile (fun c => !(c == '.'))).tail
    some (digits_to_nat int_part, digits_to_nat frac_part, frac_part.length)

/-- `float(clean)` (line 69) on the reachable alphabet: `None` models the
`Exception` caught by the surrounding `try`. -/
def py_float_of_clean (cs : List Char) : Option ℚ :=
  (py_float_parts cs).map (fun p => (p.1 : ℚ) + (p.2.1 : ℚ) / (10 : ℚ) ^ p.2.2)

/-- The cleaned numeric substring of `parse_price_text`
(`src/utils.py` lines 46-52): currency tokens removed case-insensitively,
qualifier words removed, whitespace removed, then only `[0-9.,]` kept. -/
def cleaned_number (text : String) : List Char :=
  let raw := replace_narrow_spaces (py_strip text.data)
  let number_part := remove_tokens_ci (currency_tokens.map String.data) raw.length raw
  let number_part2 := remove_qualifiers number_part.length number_part
  (number_part2.filter (fun c => ! is_py_space c)).filter is_digit_sep

/-- Embedding of `parse_price_text` (`src/utils.py` lines 28-71): parse a
localized price string into an optional amount and an optional currency;
a parse failure yields `(none, currency)`. -/
def parse_price_text (text : String) : Option ℚ × Option String :=
  (py_float_of_clean (resolve_separators (cleaned_number text)),
   find_currency (replace_narrow_spaces (py_strip text.data)))

end PriceTracker

namespace PriceTracker

/-- Shared helper: the corrected bounds always bracket the current price. -/
theorem validate_price_consistency_bracket (current mn mx : ℚ) :
    (validate_price_consistency current mn mx).1 ≤ current ∧
    current ≤ (validate_price_consistency current mn mx).2 := by
  constructor
  · simp only [validate_price_consistency]
    split <;> simp_all
  · simp only [validate_price_consistency]
    split <;> simp_all

/-- C1: for every reconciliation with all three prices present,
`validate_price_consistency` lowers `min` to `current` exactly when
`current < min`, raises `max` to `current` exactly when `current > max`,
never touches `current` (it is not part of the output), and the corrected
triple always satisfies `min' ≤ current ≤ max'`; in particular
`(min=50, max=100, current=40)` yields `min' = 40` and
`(min=50, max=100, current=150)` yields `max' = 150`. -/
theorem C1_consistency_correction :
    (∀ current mn mx : ℚ,
      (validate_price_consistency current mn mx).1
        = (if current < mn then current else mn) ∧
      (validate_price_consistency current mn mx).2
        = (if current > mx then current else mx) ∧
      (validate_price_consistency current mn mx).1 ≤ current ∧
      current ≤ (validate_price_consistency current mn mx).2) ∧
    validate_price_consistency 40 50 100 = (40, 100) ∧
    validate_price_consistency 150 50 100 = (50, 150) := by
  refine ⟨fun current mn mx => ⟨rfl, rfl,
      (validate_price_consistency_bracket current mn mx).1,
      (validate_price_consistency_bracket current mn mx).2⟩,
    by norm_num [validate_price_consistency], by norm_num [validate_price_consistency]⟩

/-- C2: the history fallback triggers exactly when the stat-derived bounds
are missing/invalid or degenerate (`min == max == current`); when the
degenerate bound equals the current price, history values replace it whenever
they improve on it; and on the concrete degenerate example (stats
`min = max = current = 1000` cents, history odd-index values `[800, 1200]`
under monotonically increasing even-index timestamps) extraction yields
min = 800 and max = 1200 cents, i.e. the final triple `(8, 12, 10)`. -/
theorem C2_degenerate_history_fallback :
    (∀ raw_min raw_max raw_current : Option ℚ,
      need_history raw_min raw_max raw_current = true ↔
        ((raw_min = none ∨ ∃ m, raw_min = some m ∧ m ≤ 0) ∨
         (raw_max = none ∨ ∃ m, raw_max = some m ∧ m ≤ 0) ∨
         (∃ c, raw_current = some c ∧ raw_min = some c ∧ raw_max = some c))) ∧
    (∀ c h : ℚ, 0 < c → h ≠ 0 →
      history_update_min (some c) (some c) (some h) = some (if h < c then h else c) ∧
      history_update_max (some c) (some c) (some h) = some (if c < h then h else c)) ∧
    minmax_from_history degenerate_example_product = (some 800, some 1200) ∧
    parse_keepa_product_with_current degenerate_example_product
      = (some 8, some 12, some 10) := by
  have hmm : minmax_from_history degenerate_example_product = (some 800, some 1200) := by
    norm_num [minmax_from_history, degenerate_example_product, find_history_series,
      history_series_keys, dictGet, series_nums_at, monotonic_score, py_median,
      price_cents_ok, List.findSome?, List.enum, List.enumFrom, List.filterMap,
      List.filter, List.insertionSort, List.orderedInsert, List.min?, List.max?]
  refine ⟨?_, ?_, hmm, ?_⟩
  · intro rm rx rc
    cases rm <;> cases rx <;> cases rc <;>
      simp [need_history, stat_invalid, stat_valid, not_lt]
    tauto
  · intro c h hc hne
    constructor
    · by_cases hlt : h < c <;>
        simp [history_update_min, stat_invalid, stat_valid, py_truthy, hc, hne, hlt]
    · by_cases hlt : c < h <;>
        simp [history_update_max, stat_invalid, stat_valid, py_truthy, hc, hne, hlt]
  · have hstats : degenerate_example_product.stats
        = [("current", .num 1000), ("min", .num 1000), ("max", .num 1000)] := rfl
    have hc : pick_amazon_stat
        [("current", .num 1000), ("min", .num 1000), ("max", .num 1000)] "current"
        = some 1000 := by decide
    have hmn : pick_amazon_stat
        [("current", .num 1000), ("min", .num 1000), ("max", .num 1000)] "min"
        = some 1000 := by decide
    have hmx : pick_amazon_stat
        [("current", .num 1000), ("min", .num 1000), ("max", .num 1000)] "max"
        = some 1000 := by decide
    have hseed : seed_from_current (some 1000) (some 1000) = some (1000 : ℚ) := by decide
    have hneed : need_history (some 1000) (some 1000) (some (1000 : ℚ)) = true := by decide
    have humin : history_update_min (some 1000) (some 1000) (some 800) = some (800 : ℚ) := by
      decide
    have humax : history_update_max (some 1000) (some 1000) (some 1200) = some (1200 : ℚ) := by
      decide
    have hc800 : cents_to_price (some 800) = some 8 := by
      norm_num [cents_to_price, py_round2, round_half_even]
    have hc1200 : cents_to_price (some 1200) = some 12 := by
      norm_num [cents_to_price, py_round2, round_half_even]
    have hc1000 : cents_to_price (some 1000) = some 10 := by
      norm_num [cents_to_price, py_round2, round_half_even]
    simp only [parse_keepa_product_with_current, hstats, List.isEmpty_cons,
      Bool.false_eq_true, if_false, hc, hmn, hmx, hseed, hneed, if_true, hmm,
      humin, humax, hc800, hc1200, hc1000]

/-- C2 witness: `C2_degenerate_history_fallback` applied at the degenerate
current 1000 with the history bounds 800 and 1200, and the trigger condition
applied at the degenerate triple `(1000, 1000, 1000)`. -/
theorem C2_degenerate_history_fallback_witness :
    history_update_min (some 1000) (some 1000) (some 800) = some 800 ∧
    history_update_max (some 1000) (some 1000) (some 1200) = some 1200 ∧
    need_history (some 1000) (some 1000) (some 1000) = true := by
  obtain ⟨htrig, hupd, -, -⟩ := C2_degenerate_history_fallback
  obtain ⟨h1, -⟩ := hupd 1000 800 (by norm_num) (by norm_num)
  obtain ⟨-, h2⟩ := hupd 1000 1200 (by norm_num) (by norm_num)
  refine ⟨by rw [h1]; norm_num, by rw [h2]; norm_num, ?_⟩
  exact (htrig (some 1000) (some 1000) (some 1000)).mpr
    (Or.inr (Or.inr ⟨1000, rfl, rfl, rfl⟩))

/-- C3: for a 2-element numeric stat pair, the extractor rejects an element
greater than 2,000,000 as a timestamp and takes the other element, and when
both elements are in range it takes the first; the stat entry
`[[2_500_000, 1999]]` selects 1999 and `[[1999, 2_500_000]]` also selects 1999. -/
theorem C3_pair_disambiguation :
    (∀ a b : ℚ,
      (2000000 < a → b < 2000000 → extract_from_pair (.num a) (.num b) = some b) ∧
      (2000000 < b → a < 2000000 → extract_from_pair (.num a) (.num b) = some a) ∧
      (0 < a → a < 2000000 → 0 < b → b < 2000000 →
        extract_from_pair (.num a) (.num b) = some a)) ∧
    pick_amazon_stat [("current", .list [.list [.num 2500000, .num 1999]])] "current"
      = some 1999 ∧
    pick_amazon_stat [("current", .list [.list [.num 1999, .num 2500000]])] "current"
      = some 1999 := by
  refine ⟨fun a b => ⟨?_, ?_, ?_⟩, by decide, by decide⟩
  · intro ha hb
    simp only [extract_from_pair]
    rw [if_pos ⟨ha, hb⟩]
  · intro hb ha
    simp only [extract_from_pair]
    rw [if_neg (by rintro ⟨h1, -⟩; linarith), if_pos ⟨hb, ha⟩]
  · intro ha1 ha2 hb1 hb2
    simp only [extract_from_pair]
    rw [if_neg (by rintro ⟨h1, -⟩; linarith), if_neg (by rintro ⟨h1, -⟩; linarith)]
    split <;> rfl

/-- C3 witness: `C3_pair_disambiguation` applied at the concrete pairs
`(2_500_000, 1999)`, `(1999, 2_500_000)` and the in-range pair `(1999, 300)`. -/
theorem C3_pair_disambiguation_witness :
    extract_from_pair (.num 2500000) (.num 1999) = some 1999 ∧
    extract_from_pair (.num 1999) (.num 2500000) = some 1999 ∧
    extract_from_pair (.num 1999) (.num 300) = some 1999 := by
  obtain ⟨hgen, -, -⟩ := C3_pair_disambiguation
  exact ⟨(hgen 2500000 1999).1 (by norm_num) (by norm_num),
    (hgen 1999 2500000).2.1 (by norm_num) (by norm_num),
    (hgen 1999 300).2.2 (by norm_num) (by norm_num) (by norm_num) (by norm_num)⟩

/-- C4: for a positive old price, the refresh-pass notification decision is
true iff the drop exceeds 1.0 absolute or 5% relative; and a price increase
(`current ≥ old`) never notifies. -/
theorem C4_notify_iff (old_price current_price : ℚ) (hpos : 0 < old_price) :
    (refresh_should_notify old_price current_price = true ↔
      (old_price - current_price > 1 ∨
        (old_price - current_price) / old_price > 5 / 100)) ∧
    (old_price ≤ current_price → refresh_should_notify old_price current_price = false) := by
  constructor
  · simp only [refresh_should_notify, Bool.or_eq_true, Bool.and_eq_true, decide_eq_true_eq]
    constructor
    · rintro (h | ⟨-, h⟩) <;> [exact Or.inl h; exact Or.inr h]
    · rintro (h | h) <;> [exact Or.inl h; exact Or.inr ⟨hpos, h⟩]
  · intro hle
    have h1 : ¬ (old_price - current_price > 1) := by linarith
    have h2 : ¬ ((old_price - current_price) / old_price > 5 / 100) := by
      have hd : old_price - current_price ≤ 0 := by linarith
      have hq : (old_price - current_price) / old_price ≤ 0 :=
        div_nonpos_iff.mpr (Or.inr ⟨hd, le_of_lt hpos⟩)
      intro hgt
      linarith
    simp [refresh_should_notify, h1, h2]

/-- C4 witness: the decision at `(20, 18)` (a drop of 2 > 1.0) is true, and at
`(100, 120)` (a price increase) it is false, both via `C4_notify_iff`. -/
theorem C4_notify_iff_witness :
    refresh_should_notify 20 18 = true ∧ refresh_should_notify 100 120 = false := by
  constructor
  · exact (C4_notify_iff 20 18 (by norm_num)).1.mpr (Or.inl (by norm_num))
  · exact (C4_notify_iff 100 120 (by norm_num)).2 (by norm_num)

/-- C5 counterexample: the claim states `shouldNotify(100, 95)` returns
`False`, but the code notifies because the absolute condition
`drop = 5 > 1.0` fires; the decision is `true`. -/
theorem C5_boundary_counterexample :
    refresh_should_notify 100 95 = true := by
  norm_num [refresh_should_notify]

/-- C5 amended: the notification decision yields `shouldNotify(100, 95) = True`
(the absolute threshold `drop = 5 > 1.0` fires even though the relative drop
is exactly at the 5% threshold), `shouldNotify(20, 18) = True`, and
`shouldNotify(10, 9.9) = False`. -/
theorem C5_boundary_values :
    refresh_should_notify 100 95 = true ∧
    refresh_should_notify 20 18 = true ∧
    refresh_should_notify 10 (99 / 10) = false := by
  norm_num [refresh_should_notify]

/-- C8: the batched-bounds cache key is a deterministic function of the sorted
ASIN list (for a fixed domain, which does not appear in the key at all): any
two ASIN lists that are permutations of each other produce the same key, and
in particular `cacheKey(["B1","A1"]) = cacheKey(["A1","B1"])`. -/
theorem C8_cache_key_order_independent :
    (∀ asins asins2 : List String, asins.Perm asins2 →
      minmax_cache_key asins = minmax_cache_key asins2) ∧
    minmax_cache_key ["B1", "A1"] = minmax_cache_key ["A1", "B1"] := by
  have key : ∀ asins asins2 : List String, asins.Perm asins2 →
      minmax_cache_key asins = minmax_cache_key asins2 := by
    intro asins asins2 hperm
    have hsorted : asins.insertionSort (· ≤ ·) = asins2.insertionSort (· ≤ ·) :=
      List.eq_of_perm_of_sorted
        (((List.perm_insertionSort (· ≤ ·) asins).trans hperm).trans
          (List.perm_insertionSort (· ≤ ·) asins2).symm)
        (List.sorted_insertionSort (· ≤ ·) asins)
        (List.sorted_insertionSort (· ≤ ·) asins2)
    unfold minmax_cache_key
    rw [hsorted]
  exact ⟨key, key _ _ (by decide)⟩

/-- C8 witness: `C8_cache_key_order_independent` applied to the concrete
permuted lists `["B1","A1"]` and `["A1","B1"]`. -/
theorem C8_cache_key_witness :
    minmax_cache_key ["B1", "A1"] = minmax_cache_key ["A1", "B1"] :=
  C8_cache_key_order_independent.1 ["B1", "A1"] ["A1", "B1"] (by decide)

/-- Shared helper: failing invocations from a CLOSED breaker accumulate the
failure count, and the circuit opens exactly when the count reaches the
threshold (which can only happen on the last of the given calls). -/
theorem apply_failures_from_closed (cfg : CircuitBreakerConfig) :
    ∀ (ts : List ℚ) (s : BreakerState), s.state = .closed →
      s.failure_count + ts.length ≤ cfg.failure_threshold →
      (apply_failures cfg s ts).failure_count = s.failure_count + ts.length ∧
      (apply_failures cfg s ts).state =
        (if s.failure_count + ts.length = cfg.failure_threshold ∧ ts ≠ []
         then CircuitState.opened else .closed) := by
  intro ts
  induction ts with
  | nil =>
    intro s hclosed hle
    simp [apply_failures, hclosed]
  | cons t ts ih =>
    intro s hclosed hle
    have hne : s.state = CircuitState.opened → False := by
      rw [hclosed]; intro h; exact absurd h (by decide)
    have hstep : (breaker_call cfg s t false).2
        = ⟨s.failure_count + 1, some t,
            if s.failure_count + 1 ≥ cfg.failure_threshold then .opened else s.state⟩ := by
      simp [breaker_call, hclosed, on_failure]
    by_cases hth : s.failure_count + 1 ≥ cfg.failure_threshold
    · have hts : ts = [] := by
        by_contra hne2
        have : 1 ≤ ts.length := List.length_pos.mpr hne2
        simp only [List.length_cons] at hle
        omega
      subst hts
      have hcount : s.failure_count + 1 = cfg.failure_threshold := by
        simp only [List.length_cons, List.length_nil] at hle
        omega
      simp [apply_failures, hstep, hth, hcount]
    · have hstate : (breaker_call cfg s t false).2.state = CircuitState.closed := by
        rw [hstep]; simp [hth, hclosed]
      have hcnt : (breaker_call cfg s t false).2.failure_count = s.failure_count + 1 := by
        rw [hstep]
      have := ih (breaker_call cfg s t false).2 hstate
        (by rw [hcnt]; simp only [List.length_cons] at hle ⊢; omega)
      rw [apply_failures]
      rcases this with ⟨c1, c2⟩
      constructor
      · rw [c1, hcnt]; simp only [List.length_cons]; omega
      · rw [c2, hcnt]
        by_cases hts : ts = []
        · subst hts
          simp only [List.length_nil, List.length_cons]
          have : ¬ (s.failure_count + 1 + 0 = cfg.failure_threshold) := by omega
          simp [this]
        · simp only [List.length_cons, hts]
          have heq : s.failure_count + 1 + ts.length
              = s.failure_count + (ts.length + 1) := by omega
          rw [heq]
          simp [hts]

/-- C7: the circuit breaker follows the specified state machine: from a fresh
breaker, `failure_threshold` consecutive failing invocations leave the
breaker OPEN; while OPEN with the recovery timeout not yet elapsed every call
fails fast with the circuit-open error, without invoking the wrapped
function and without changing state; once the timeout has elapsed the next
call is attempted, a success closing the circuit with the failure count
reset to zero, and a failure reopening it. -/
theorem C7_circuit_breaker_lifecycle :
    (∀ (cfg : CircuitBreakerConfig) (ts : List ℚ),
      1 ≤ cfg.failure_threshold → ts.length = cfg.failure_threshold →
      (apply_failures cfg breaker_init ts).state = .opened ∧
      (apply_failures cfg breaker_init ts).failure_count = cfg.failure_threshold) ∧
    (∀ (cfg : CircuitBreakerConfig) (s : BreakerState) (now t : ℚ) (outcome : Bool),
      s.state = .opened → s.last_failure_time = some t →
      now - t < cfg.recovery_timeout →
      breaker_call cfg s now outcome = (.circuitOpenError, s)) ∧
    (∀ (cfg : CircuitBreakerConfig) (s : BreakerState) (now t : ℚ),
      s.state = .opened → s.last_failure_time = some t →
      cfg.recovery_timeout ≤ now - t →
      breaker_call cfg s now true = (.invoked true, ⟨0, s.last_failure_time, .closed⟩)) ∧
    (∀ (cfg : CircuitBreakerConfig) (s : BreakerState) (now t : ℚ),
      s.state = .opened → s.last_failure_time = some t →
      cfg.recovery_timeout ≤ now - t → cfg.failure_threshold ≤ s.failure_count + 1 →
      breaker_call cfg s now false
        = (.invoked false, ⟨s.failure_count + 1, some now, .opened⟩)) := by
  refine ⟨?_, ?_, ?_, ?_⟩
  · intro cfg ts h1 hlen
    have := apply_failures_from_closed cfg ts breaker_init rfl
      (by simp [breaker_init, hlen])
    rcases this with ⟨c1, c2⟩
    have hne : ts ≠ [] := by
      intro h; subst h; simp at hlen; omega
    constructor
    · rw [c2]; simp [breaker_init, hlen, hne]
    · rw [c1]; simp [breaker_init, hlen]
  · intro cfg s now t outcome hopen hlast hlt
    have hreset : should_attempt_reset cfg s now = false := by
      simp [should_attempt_reset, hlast, not_le.mpr hlt]
    simp [breaker_call, hopen, hreset]
  · intro cfg s now t hopen hlast hle
    have hreset : should_attempt_reset cfg s now = true := by
      simp [should_attempt_reset, hopen, hlast, hle]
    simp [breaker_call, hopen, hreset, on_success]
  · intro cfg s now t hopen hlast hle hth
    have hreset : should_attempt_reset cfg s now = true := by
      simp [should_attempt_reset, hopen, hlast, hle]
    simp [breaker_call, hopen, hreset, on_failure, hth]

/-- C7 witness: `C7_circuit_breaker_lifecycle` at `failure_threshold = 3`,
`recovery_timeout = 30`: three failures (at times 1, 2, 3) open the breaker;
at time 10 a call fails fast; at time 40 a success closes the breaker with
the failure count reset; at time 40 a failure reopens it. -/
theorem C7_circuit_breaker_witness :
    (apply_failures ⟨3, 30⟩ breaker_init [1, 2, 3]).state = .opened ∧
    breaker_call ⟨3, 30⟩ ⟨3, some 3, .opened⟩ 10 true
      = (.circuitOpenError, ⟨3, some 3, .opened⟩) ∧
    breaker_call ⟨3, 30⟩ ⟨3, some 3, .opened⟩ 40 true
      = (.invoked true, ⟨0, some 3, .closed⟩) ∧
    breaker_call ⟨3, 30⟩ ⟨3, some 3, .opened⟩ 40 false
      = (.invoked false, ⟨4, some 40, .opened⟩) := by
  obtain ⟨h1, h2, h3, h4⟩ := C7_circuit_breaker_lifecycle
  refine ⟨(h1 ⟨3, 30⟩ [1, 2, 3] (by norm_num) (by norm_num)).1,
    h2 ⟨3, 30⟩ ⟨3, some 3, .opened⟩ 10 3 true rfl rfl (by norm_num),
    h3 ⟨3, 30⟩ ⟨3, some 3, .opened⟩ 40 3 rfl rfl (by norm_num),
    h4 ⟨3, 30⟩ ⟨3, some 3, .opened⟩ 40 3 rfl rfl (by norm_num) (by norm_num)⟩

/-- C6: for every tracked item whose availability is explicitly
`unavailable`, the refresh pass sends no notification regardless of the old
price (hence of the size of any drop), yet the corrected bounds and the
current price together with the availability flag are still written to
persistence, and the persisted bounds bracket the current price. -/
theorem C6_unavailable_suppresses_notification
    (k_min k_max k_cur api_price last_price old_price : Option ℚ)
    (adj_min adj_max current_price : ℚ)
    (hcomp : compute_asin_prices k_min k_max k_cur api_price last_price
      = some (adj_min, adj_max, current_price)) :
    (process_item adj_min adj_max current_price old_price (some "unavailable")).notified
      = false ∧
    (process_item adj_min adj_max current_price old_price
        (some "unavailable")).bounds_write = (adj_min, adj_max) ∧
    (process_item adj_min adj_max current_price old_price
        (some "unavailable")).price_write = (current_price, some "unavailable") ∧
    adj_min ≤ current_price ∧ current_price ≤ adj_max := by
  refine ⟨rfl, rfl, rfl, ?_, ?_⟩ <;>
  · simp only [compute_asin_prices] at hcomp
    rcases hs : seed_bounds k_min k_max k_cur api_price last_price with ⟨om, omx⟩
    rw [hs] at hcomp
    cases om with
    | none => simp at hcomp
    | some m =>
      cases omx with
      | none => simp at hcomp
      | some mx =>
        simp only [Option.some.injEq, Prod.mk.injEq] at hcomp
        obtain ⟨h1, h2, h3⟩ := hcomp
        subst h1; subst h2; subst h3
        first
        | exact (validate_price_consistency_bracket _ m mx).1
        | exact (validate_price_consistency_bracket _ m mx).2

/-- C6 witness: `C6_unavailable_suppresses_notification` at Keepa bounds
(50, 100), an API price of 40 (a 20% drop from the old price 50) and
availability `unavailable`: no notification, but bounds `(40, 100)` and the
price 40 with the `unavailable` flag are persisted. -/
theorem C6_unavailable_witness :
    (process_item 40 100 40 (some 50) (some "unavailable")).notified = false ∧
    (process_item 40 100 40 (some 50) (some "unavailable")).price_write
      = (40, some "unavailable") := by
  obtain ⟨h1, -, h2, -, -⟩ := C6_unavailable_suppresses_notification
    (some 50) (some 100) none (some 40) none (some 50) 40 100 40 (by decide)
  exact ⟨h1, h2⟩

/-- C10: in the refresh pass, when neither the live API fetch nor the Keepa
query yields a current price but bounds are available (possibly seeded from
the persisted last price), the current price used for reconciliation,
persistence and notification is the midpoint `(min + max) / 2` of those
bounds. -/
theorem C10_midpoint_current
    (k_min k_max last_price : Option ℚ) (adj_min adj_max current_price : ℚ)
    (hcomp : compute_asin_prices k_min k_max none none last_price
      = some (adj_min, adj_max, current_price)) :
    ∃ m mx, seed_bounds k_min k_max none none last_price = (some m, some mx) ∧
      current_price = (m + mx) / 2 ∧
      (adj_min, adj_max) = validate_price_consistency current_price m mx ∧
      (∀ old_price avail,
        (process_item adj_min adj_max current_price old_price avail).price_write.1
          = current_price) ∧
      (∀ op, (process_item adj_min adj_max current_price (some op) none).notified
          = refresh_should_notify op current_price) := by
  simp only [compute_asin_prices] at hcomp
  rcases hs : seed_bounds k_min k_max none none last_price with ⟨om, omx⟩
  rw [hs] at hcomp
  cases om with
  | none => simp at hcomp
  | some m =>
    cases omx with
    | none => simp at hcomp
    | some mx =>
      simp only [Option.some.injEq, Prod.mk.injEq] at hcomp
      obtain ⟨h1, h2, h3⟩ := hcomp
      subst h1; subst h2; subst h3
      exact ⟨m, mx, rfl, rfl, rfl, fun _ _ => rfl, fun _ => rfl⟩

/-- C9: the price normalizer is a total function (the embedding is an
ordinary Lean function, modelling that the Python code catches the only
raising step, `float(clean)`): whenever the cleaned string does not parse as
a float it returns `(none, currency)`, where the currency is the first
currency token found in the string, mapped symbol-to-ISO when possible, or
`none`; concretely `"abc"` yields `(none, none)`, `"€ --"` yields
`(none, some "EUR")`, and the well-formed `"12,34 €"` parses to
`(12.34, EUR)`. -/
theorem C9_parse_failure_returns_currency :
    (∀ s : String,
      py_float_of_clean (resolve_separators (cleaned_number s)) = none →
      parse_price_text s
        = (none, find_currency (replace_narrow_spaces (py_strip s.data)))) ∧
    parse_price_text "abc" = (none, none) ∧
    parse_price_text "€ --" = (none, some "EUR") ∧
    parse_price_text "12,34 €" = (some (1234 / 100), some "EUR") := by
  have hnil : py_float_of_clean [] = none := by
    have h : py_float_parts [] = none := by decide
    simp [py_float_of_clean, h]
  refine ⟨?_, ?_, ?_, ?_⟩
  · intro s h
    simp only [parse_price_text, h]
  · have h1 : resolve_separators (cleaned_number "abc") = [] := by decide
    have h2 : find_currency (replace_narrow_spaces (py_strip "abc".data)) = none := by
      decide
    simp only [parse_price_text, h1, h2, hnil]
  · have h1 : resolve_separators (cleaned_number "€ --") = [] := by decide
    have h2 : find_currency (replace_narrow_spaces (py_strip "€ --".data))
        = some "EUR" := by decide
    simp only [parse_price_text, h1, h2, hnil]
  · have h1 : resolve_separators (cleaned_number "12,34 €")
        = ['1', '2', '.', '3', '4'] := by decide
    have h2 : find_currency (replace_narrow_spaces (py_strip "12,34 €".data))
        = some "EUR" := by decide
    have h3 : py_float_parts ['1', '2', '.', '3', '4'] = some (12, 34, 2) := by decide
    simp only [parse_price_text, h1, h2, py_float_of_clean, h3, Option.map_some]
    norm_num

/-- C9 witness: `C9_parse_failure_returns_currency` applied at the concrete
unparsable input `"abc"`. -/
theorem C9_parse_failure_witness :
    parse_price_text "abc"
      = (none, find_currency (replace_narrow_spaces (py_strip "abc".data))) := by
  apply C9_parse_failure_returns_currency.1 "abc"
  have h1 : resolve_separators (cleaned_number "abc") = [] := by decide
  have h2 : py_float_parts [] = none := by decide
  rw [h1]
  simp [py_float_of_clean, h2]

/-- C10 witness: `C10_midpoint_current` at bounds (40, 60) with no API price,
no Keepa current and no last price: the current price is the midpoint 50. -/
theorem C10_midpoint_witness :
    seed_bounds (some 40) (some 60) none none none
      = ((some 40 : Option ℚ), (some 60 : Option ℚ)) ∧
    (50 : ℚ) = (40 + 60) / 2 := by
  obtain ⟨m, mx, hseed, hcur, -, -, -⟩ := C10_midpoint_current
    (some 40) (some 60) none 40 60 50
    (by norm_num [compute_asin_prices, seed_bounds, validate_price_consistency])
  have h1 : seed_bounds (some 40) (some 60) none none none
      = ((some 40 : Option ℚ), (some 60 : Option ℚ)) := by decide
  rw [h1] at hseed
  simp only [Prod.mk.injEq, Option.some.injEq] at hseed
  obtain ⟨hm, hmx⟩ := hseed
  subst hm
  subst hmx
  exact ⟨h1, hcur⟩

end PriceTracker
